import Mathlib

/-!
Shallow embedding of the crash-detect trading system core.

Definitions are translated from the Python sources:
  - trading_alert_system.py : signal evaluation (check_signal), sentiment
    proxy (calculate_put_call_proxy), fractal dimension
    (calculate_fractal_dimension), HMM regime labelling (train_hmm_model,
    calculate_current_state);
  - backtest_portfolio.py : the trade-execution block of run_backtest
    (entry, daily exit monitoring, portfolio accounting);
  - optimized_price_reset.py : the daily step of the linear-progression
    dip-buy policy in main.

Numeric values are modelled over an arbitrary linear ordered field wherever
the computation is pure field arithmetic and comparisons (so concrete
witnesses evaluate at the rationals), and over the reals where logarithms
and square roots are required.  Missing values (NaN in pandas) are modelled
with Option; pandas operations that skip or propagate NaN are embedded with
the corresponding Option plumbing.
-/

namespace CrashDetect

section SignalEvaluator

variable {α : Type*} [LinearOrderedField α]

/-- MarketState: the dict produced by calculate_current_state
(trading_alert_system.py lines 290-297), restricted to the fields read by
check_signal. -/
structure MarketState (α : Type*) where
  fractal_dimension : Option α
  put_call_ratio : α
  vix : α
  markov_state : String
deriving DecidableEq

/-- Threshold configuration read by check_signal.  The Python code reads the
long-side keys with dict.get defaults; configuration loading is external to
the core, so the resolved values appear as plain fields here. -/
structure Thresholds (α : Type*) where
  fractal_max : α
  put_call_min : α
  vix_min : α
  markov_state : String
  fractal_max_long : α
  put_call_max_long : α
  vix_max_long : α
  markov_state_long : String
deriving DecidableEq

/-- Boolean condition map built by check_signal for diagnostics. -/
structure CondMap where
  fractal : Bool
  put_call : Bool
  vix : Bool
  markov : Bool
deriving DecidableEq

/-- all(conditions.values()) over the four entries, in source order. -/
def CondMap.allTrue (c : CondMap) : Bool :=
  c.fractal && c.put_call && c.vix && c.markov

/-- SHORT condition set (trading_alert_system.py lines 305-311). -/
def shortConditions (s : MarketState α) (t : Thresholds α) : CondMap where
  fractal := match s.fractal_dimension with
    | some f => decide (f < t.fractal_max)
    | none => false
  put_call := decide (s.put_call_ratio > t.put_call_min)
  vix := decide (s.vix > t.vix_min)
  markov := s.markov_state == t.markov_state

/-- LONG condition set (trading_alert_system.py lines 314-320). -/
def longConditions (s : MarketState α) (t : Thresholds α) : CondMap where
  fractal := match s.fractal_dimension with
    | some f => decide (f < t.fractal_max_long)
    | none => false
  put_call := decide (s.put_call_ratio < t.put_call_max_long)
  vix := decide (s.vix < t.vix_max_long)
  markov := s.markov_state == t.markov_state_long

/-- check_signal (trading_alert_system.py lines 299-331): evaluates the SHORT
condition set, then the LONG condition set; returns the signal string and the
condition map that produced it (the SHORT map on a no-signal result). -/
def check_signal (s : MarketState α) (t : Thresholds α) :
    Option String × CondMap :=
  let sc := shortConditions s t
  let lc := longConditions s t
  if sc.allTrue then (some "SHORT", sc)
  else if lc.allTrue then (some "LONG", lc)
  else (none, sc)

end SignalEvaluator

section DipBuy

variable {α : Type*} [LinearOrderedField α]

/-- Configuration constants of optimized_price_reset.py main (lines 17-22).
In the source: base_buy_amount = 10000, annual_cap = 300000,
dip_threshold = -0.05, reset_threshold = 1.05. -/
structure DipConfig (α : Type*) where
  base_buy_amount : α
  annual_cap : α
  dip_threshold : α
  reset_threshold : α
deriving DecidableEq

/-- One trading day as consumed by the loop body (date year, close price of
the day and of the previous day). -/
structure DipDay (α : Type*) where
  year : Nat
  price : α
  prevPrice : α
deriving DecidableEq

/-- Record appended to buys on an executed purchase. -/
structure BuyRec (α : Type*) where
  price : α
  amount : α
  sequence : Nat
  year : Nat
deriving DecidableEq

/-- Record appended to resets on a recorded reset event. -/
structure ResetRec (α : Type*) where
  price : α
deriving DecidableEq

/-- Record appended to skips when a triggered opportunity cannot be funded. -/
structure SkipRec (α : Type*) where
  year : Nat
  remaining : α
  wanted : α
  price : α
deriving DecidableEq

/-- Mutable state of the dip-buy loop (optimized_price_reset.py lines 44-54).
The annual_spending dict with get-default-0 is modelled as a total function
from year to amount spent. -/
structure DipState (α : Type*) where
  qqq_shares : α
  total_invested : α
  last_purchase_price : Option α
  last_10k_price : Option α
  buy_sequence : Nat
  annual_spending : Nat → α
  buys : List (BuyRec α)
  resets : List (ResetRec α)
  skips : List (SkipRec α)

/-- Initial state of the dip-buy loop (all zero / empty / None). -/
def dipInit : DipState α where
  qqq_shares := 0
  total_invested := 0
  last_purchase_price := none
  last_10k_price := none
  buy_sequence := 0
  annual_spending := fun _ => 0
  buys := []
  resets := []
  skips := []

/-- Price-based reset check (optimized_price_reset.py lines 62-66): when a
last 10K purchase price exists and the price exceeds it times the reset
threshold, and the sequence is positive, zero the sequence and record a reset
event. -/
def resetPhase (cfg : DipConfig α) (st : DipState α) (day : DipDay α) :
    DipState α :=
  match st.last_10k_price with
  | some p10 =>
      if day.price > p10 * cfg.reset_threshold then
        if st.buy_sequence > 0 then
          { st with buy_sequence := 0,
                    resets := st.resets ++ [⟨day.price⟩] }
        else st
      else st
  | none => st

/-- Trigger condition (optimized_price_reset.py lines 69-78): a single-day
drop at or below the dip threshold, or a drawdown from the last purchase
price at or below the dip threshold. -/
def dipTriggered (cfg : DipConfig α) (st : DipState α) (day : DipDay α) :
    Bool :=
  let dailyReturn := (day.price - day.prevPrice) / day.prevPrice
  let singleDayDrop := decide (dailyReturn ≤ cfg.dip_threshold)
  let drawdownTrigger := match st.last_purchase_price with
    | some lp => decide ((day.price - lp) / lp ≤ cfg.dip_threshold)
    | none => false
  singleDayDrop || drawdownTrigger

/-- Countdown of the loop for test_sequence in range(buy_sequence + 1, 0, -1)
(optimized_price_reset.py lines 90-94): the first multiple count, from the
top, whose amount fits the remaining cap. -/
def smartSizeLoop (cfg : DipConfig α) (remaining : α) : Nat → Option Nat
  | 0 => none
  | k + 1 =>
      if ((k + 1 : Nat) : α) * cfg.base_buy_amount ≤ remaining then
        some (k + 1)
      else smartSizeLoop cfg remaining k

/-- Smart sizing (optimized_price_reset.py lines 87-94): the largest buy of
the form test_sequence times the base amount, test_sequence decremented from
buy_sequence + 1 down to 1, fitting the remaining cap; none when no multiple
fits. -/
def smartSize (cfg : DipConfig α) (seq : Nat) (remaining : α) : Option α :=
  (smartSizeLoop cfg remaining (seq + 1)).map
    (fun (k : Nat) => (k : α) * cfg.base_buy_amount)

/-- Executed purchase (optimized_price_reset.py lines 96-115): update shares,
invested total, annual spending, sequence, last purchase price and, for an
exactly-base-sized buy, the last 10K price; append the buy record. -/
def executeBuy (cfg : DipConfig α) (st : DipState α) (day : DipDay α)
    (amt : α) : DipState α :=
  { st with
    qqq_shares := st.qqq_shares + amt / day.price,
    total_invested := st.total_invested + amt,
    annual_spending := fun y =>
      if y = day.year then st.annual_spending day.year + amt
      else st.annual_spending y,
    buy_sequence := st.buy_sequence + 1,
    last_purchase_price := some day.price,
    last_10k_price :=
      if amt = cfg.base_buy_amount then some day.price
      else st.last_10k_price,
    buys := st.buys ++
      [⟨day.price, amt, st.buy_sequence + 1, day.year⟩] }

/-- Skipped opportunity (optimized_price_reset.py lines 116-124): record the
skip with the remaining cap and the ideal amount wanted. -/
def recordSkip (cfg : DipConfig α) (st : DipState α) (day : DipDay α) :
    DipState α :=
  { st with skips := st.skips ++
      [⟨day.year, cfg.annual_cap - st.annual_spending day.year,
        cfg.base_buy_amount * (st.buy_sequence + 1 : Nat), day.price⟩] }

/-- Trigger handling (optimized_price_reset.py lines 78-124): on a trigger,
compute the remaining cap, smart-size the buy, then execute it or record the
skip (the source also re-checks actual_amount >= base_buy_amount before
buying). -/
def triggerPhase (cfg : DipConfig α) (st : DipState α) (day : DipDay α) :
    DipState α :=
  if dipTriggered cfg st day then
    match smartSize cfg st.buy_sequence
        (cfg.annual_cap - st.annual_spending day.year) with
    | some amt =>
        if amt ≥ cfg.base_buy_amount then executeBuy cfg st day amt
        else recordSkip cfg st day
    | none => recordSkip cfg st day
  else st

/-- One iteration of the main loop (optimized_price_reset.py lines 57-124):
the reset check runs first, then the trigger check. -/
def dipStep (cfg : DipConfig α) (st : DipState α) (day : DipDay α) :
    DipState α :=
  triggerPhase cfg (resetPhase cfg st day) day

/-- The whole dip-buy simulation over a day sequence. -/
def runDip (cfg : DipConfig α) (days : List (DipDay α)) : DipState α :=
  days.foldl (dipStep cfg) dipInit

end DipBuy

section TradeSimulator

variable {α : Type*} [LinearOrderedField α]

/-- Exit reasons of a simulated trade (backtest_portfolio.py lines 195, 202,
209, 231; the parenthesised percentages of the source strings are
diagnostics, not part of the reason). -/
inductive ExitReason
  | gainTarget
  | stopLoss
  | timeExit
  | endOfData
deriving DecidableEq

/-- Aligned market data consumed by run_backtest (backtest_portfolio.py):
benchmark closes and the leveraged-instrument closes, where a missing SPXS
price (NaN) is none. -/
structure BtData (α : Type*) where
  close : List α
  spxs : List (Option α)
deriving DecidableEq

/-- Trade parameters of run_backtest (backtest_portfolio.py lines 95-100). -/
structure BtParams (α : Type*) where
  holdDays : Nat
  gainTarget : α
  stopLoss : α
  positionPct : α
deriving DecidableEq

/-- Trade record assembled on close (backtest_portfolio.py lines 252-270),
with dates represented by their row indices. -/
structure BtTrade (α : Type*) where
  entryIdx : Nat
  exitIdx : Nat
  daysHeld : Nat
  reason : ExitReason
  entrySpy : α
  exitSpy : α
  entrySpxs : α
  exitSpxs : α
  spyReturn : α
  spxsReturn : α
  portfolioBefore : α
  portfolioAfter : α
deriving DecidableEq

/-- simulate_3x_inverse (backtest_portfolio.py lines 76-78). -/
def simulate_3x_inverse (spyReturn : α) : α :=
  -3 * spyReturn

/-- SPXS entry pricing (backtest_portfolio.py lines 144-149): the real price
when present on the entry date, otherwise a simulated starting price of 100;
the boolean is the use_real_spxs flag. -/
def entrySpxsOf (d : BtData α) (i : Nat) : α × Bool :=
  match d.spxs.getD i none with
  | some p => (p, true)
  | none => (100, false)

/-- Branch condition selecting real pricing for a monitored day
(backtest_portfolio.py lines 166-168). -/
def usesRealPriceAt (d : BtData α) (useReal : Bool) (j : Nat) : Bool :=
  useReal && (d.spxs.getD j none).isSome

/-- Monitored SPXS price on day j (backtest_portfolio.py lines 163-181): the
real close when the trade entered on a real price and the day has one,
otherwise the synthetic price from the -3x benchmark-return model.  The
END OF DATA branch (lines 219-230) computes the same expression at the
forced exit index. -/
def monitoredSpxs (d : BtData α) (entrySpy entrySpxs : α) (useReal : Bool)
    (j : Nat) : α :=
  if usesRealPriceAt d useReal j then (d.spxs.getD j none).getD 0
  else
    entrySpxs *
      (1 + simulate_3x_inverse ((d.close.getD j 0 - entrySpy) / entrySpy))

/-- SPXS position return monitored on day j (backtest_portfolio.py
lines 184-187). -/
def spxsReturnAt (d : BtData α) (entrySpy entrySpxs : α) (useReal : Bool)
    (j : Nat) : α :=
  (monitoredSpxs d entrySpy entrySpxs useReal j - entrySpxs) / entrySpxs

/-- Daily exit conditions in source priority order (backtest_portfolio.py
lines 189-210): gain target, then stop loss, then time limit. -/
def exitCheckAt (p : BtParams α) (d : BtData α) (i : Nat)
    (entrySpy entrySpxs : α) (useReal : Bool) (j : Nat) :
    Option ExitReason :=
  let r := spxsReturnAt d entrySpy entrySpxs useReal j
  if r ≥ p.gainTarget then some .gainTarget
  else if r ≤ -p.stopLoss then some .stopLoss
  else if j - i ≥ p.holdDays then some .timeExit
  else none

/-- Indices scanned by the monitoring loop:
range(i + 1, min(i + hold_days + 1, len(data))). -/
def monitorIdxs (p : BtParams α) (d : BtData α) (i : Nat) : List Nat :=
  List.range' (i + 1) (min (i + p.holdDays + 1) d.close.length - (i + 1))

/-- First index (with its reason) at which an exit condition fires; none when
the loop completes without a break. -/
def firstExit (f : Nat → Option ExitReason) : List Nat →
    Option (Nat × ExitReason)
  | [] => none
  | j :: rest =>
      match f j with
      | some r => some (j, r)
      | none => firstExit f rest

/-- Trade closing and portfolio accounting (backtest_portfolio.py
lines 233-270): returns over the hold, the untraded sleeve marked at the
benchmark return, the traded sleeve at the instrument return, both summed
into the new portfolio value, assembled into the trade record. -/
def closeTradeAt (p : BtParams α) (d : BtData α) (i : Nat) (pv : α)
    (exitIdx : Nat) (reason : ExitReason) (exitSpxs : α) : BtTrade α :=
  let entrySpy := d.close.getD i 0
  let entrySpxs := (entrySpxsOf d i).1
  let exitSpy := d.close.getD exitIdx 0
  let spyReturn := (exitSpy - entrySpy) / entrySpy
  let spxsReturn := (exitSpxs - entrySpxs) / entrySpxs
  let positionValue := pv * p.positionPct
  let longValue := pv - positionValue
  { entryIdx := i, exitIdx := exitIdx, daysHeld := exitIdx - i,
    reason := reason, entrySpy := entrySpy, exitSpy := exitSpy,
    entrySpxs := entrySpxs, exitSpxs := exitSpxs,
    spyReturn := spyReturn, spxsReturn := spxsReturn,
    portfolioBefore := pv,
    portfolioAfter := longValue * (1 + spyReturn)
      + positionValue * (1 + spxsReturn) }

/-- Trade execution block of run_backtest (backtest_portfolio.py
lines 133-274) for a SHORT signal at row i with current portfolio value pv:
entry pricing, daily exit monitoring with the first firing condition taken,
and the forced END OF DATA exit at min(i + hold_days, len - 1) when no
condition fires before the data ends. -/
def openTrade (p : BtParams α) (d : BtData α) (i : Nat) (pv : α) :
    BtTrade α :=
  let entrySpy := d.close.getD i 0
  let es := entrySpxsOf d i
  match firstExit (exitCheckAt p d i entrySpy es.1 es.2)
      (monitorIdxs p d i) with
  | some (j, reason) =>
      closeTradeAt p d i pv j reason (monitoredSpxs d entrySpy es.1 es.2 j)
  | none =>
      let exitIdx := min (i + p.holdDays) (d.close.length - 1)
      closeTradeAt p d i pv exitIdx .endOfData
        (monitoredSpxs d entrySpy es.1 es.2 exitIdx)

end TradeSimulator

section SentimentProxy

variable {α : Type*} [LinearOrderedField α]

/-- Arithmetic mean of a list, as pandas and numpy compute it. -/
def listMean (l : List α) : α :=
  l.sum / l.length

/-- Rolling mean with window k, pandas semantics: the value at position i is
present only when k observations ending at i exist and none of them is
missing. -/
def rollingMean (k : Nat) (xs : List (Option α)) : List (Option α) :=
  (List.range xs.length).map (fun i =>
    if k ≤ i + 1 then
      let w := (xs.drop (i + 1 - k)).take k
      if w.all Option.isSome then some (listMean (w.filterMap id)) else none
    else none)

/-- pandas clip(lower, upper) on one present value; missing values (NaN) pass
through clip unchanged. -/
def clipOpt (lo hi : α) : Option α → Option α :=
  Option.map (fun x => min (max x lo) hi)

/-- calculate_put_call_proxy (trading_alert_system.py lines 123-136):
vix_normalized = vix / 20, price_momentum = -rolling5mean(returns) * 10,
proxy = 0.8 + (vix_normalized - 1) * 0.3 + price_momentum, clipped to
[0.3, 2.5].  The returns column carries missing values before enough history
exists, so the proxy is missing exactly where the rolling mean is. -/
def calculate_put_call_proxy (vix : List α) (rets : List (Option α)) :
    List (Option α) :=
  let vixNormalized := vix.map (· / 20)
  let priceMomentum := (rollingMean 5 rets).map (Option.map (fun m => -m * 10))
  let pcProxy := (vixNormalized.zip priceMomentum).map
    (fun q => q.2.map (fun m => 0.8 + (q.1 - 1) * 0.3 + m))
  pcProxy.map (clipOpt 0.3 2.5)

end SentimentProxy

section FractalEstimator

/-- Population variance, matching np.var / the default ddof=0 of np.std. -/
noncomputable def npVar (l : List ℝ) : ℝ :=
  (l.map (fun x => (x - listMean l) ^ 2)).sum / l.length

/-- np.std with its default ddof=0. -/
noncomputable def npStd (l : List ℝ) : ℝ :=
  Real.sqrt (npVar l)

/-- np.cumsum: the i-th entry is the sum of the first i+1 entries. -/
def cumsum (l : List ℝ) : List ℝ :=
  (List.range l.length).map (fun i => (l.take (i + 1)).sum)

/-- np.max of a sub-series (always nonempty where used). -/
def listMax : List ℝ → ℝ
  | [] => 0
  | x :: xs => xs.foldl max x

/-- np.min of a sub-series (always nonempty where used). -/
def listMin : List ℝ → ℝ
  | [] => 0
  | x :: xs => xs.foldl min x

/-- Rescaled-range value of one sub-series (trading_alert_system.py
lines 163-180): skip sub-series shorter than 2, mean-adjust, take the range
of the cumulative deviate, divide by the standard deviation, skipping
sub-series with zero standard deviation. -/
noncomputable def rsOfSub (sub : List ℝ) : Option ℝ :=
  if sub.length < 2 then none
  else
    let meanAdj := sub.map (fun x => x - listMean sub)
    let cumdev := cumsum meanAdj
    let R := listMax cumdev - listMin cumdev
    let S := npStd sub
    if S > 0 then some (R / S) else none

/-- Split of the log-price series into its non-overlapping length-lag
sub-series (trading_alert_system.py lines 156-160). -/
def subseriesOf (pp : List ℝ) (lag : Nat) : List (List ℝ) :=
  (List.range (pp.length / lag)).map (fun i => (pp.drop (i * lag)).take lag)

/-- Average rescaled-range value for one lag (trading_alert_system.py
lines 151-183): none when fewer than 2 sub-series exist or no sub-series
yields a value. -/
noncomputable def tauForLag (pp : List ℝ) (lag : Nat) : Option ℝ :=
  if pp.length / lag < 2 then none
  else
    let rsValues := (subseriesOf pp lag).filterMap rsOfSub
    if rsValues.isEmpty then none else some (listMean rsValues)

/-- Entries appended to tau over the loop for lag in range(2, max_lag)
(trading_alert_system.py lines 148-183).  The source appends only the value;
the loop variable that produced it is retained here alongside, so that the
pairing used later can be stated. -/
noncomputable def tauEntries (prices : List ℝ) (maxLag : Nat) :
    List (Nat × ℝ) :=
  (List.range' 2 (maxLag - 2)).filterMap
    (fun lag => (tauForLag (prices.map Real.log) lag).map (fun t => (lag, t)))

/-- Lags whose logs are used as regression abscissae: lags[:len(tau)]
(trading_alert_system.py line 189), the first len(tau) lags of the range,
regardless of which lags produced the retained values. -/
noncomputable def regressionLags (prices : List ℝ) (maxLag : Nat) :
    List Nat :=
  (List.range' 2 (maxLag - 2)).take (tauEntries prices maxLag).length

/-- Slope of the degree-1 least-squares fit, np.polyfit(x, y, 1)[0]. -/
noncomputable def polyfitSlope (xs ys : List ℝ) : ℝ :=
  let n : ℝ := xs.length
  (n * ((xs.zip ys).map (fun q => q.1 * q.2)).sum - xs.sum * ys.sum) /
    (n * (xs.map (fun x => x ^ 2)).sum - xs.sum ^ 2)

/-- calculate_fractal_dimension (trading_alert_system.py lines 138-202).
Over the reals every logarithm of the retained positive values is finite, so
the np.isfinite mask of lines 192-195 keeps every point and its count equals
len(tau); the guard sum(valid) < 2 therefore coincides with the
len(tau) < 2 guard. -/
noncomputable def calculate_fractal_dimension (prices : List ℝ)
    (maxLag : Nat) : Option ℝ :=
  if prices.length < maxLag * 2 then none
  else
    let tau := (tauEntries prices maxLag).map Prod.snd
    if tau.length < 2 then none
    else
      let lagsLog := (regressionLags prices maxLag).map
        (fun l => Real.log l)
      let tauLog := tau.map Real.log
      let hurst := polyfitSlope lagsLog tauLog
      some (2 - hurst)

/-- Price series exhibiting the lag/value misalignment of the final
regression: log prices are [0,0,1,1,2,2,3,3,4,4], so every length-2
sub-series is constant (lag 2 yields no value) while lags 3 and 4 both yield
one. -/
noncomputable def exPrices : List ℝ :=
  [Real.exp 0, Real.exp 0, Real.exp 1, Real.exp 1, Real.exp 2, Real.exp 2,
   Real.exp 3, Real.exp 3, Real.exp 4, Real.exp 4]

end FractalEstimator

section RegimeClassifier

variable {α : Type*} [LinearOrderedField α]

/-- Label assignment rule for one state from the mean and standard deviation
of the returns assigned to it (trading_alert_system.py lines 249-258),
first match wins. -/
def labelOf (meanv stdv : α) : String :=
  if stdv > 0.015 ∧ meanv < 0 then "Crisis"
  else if stdv > 0.012 then "Volatile"
  else if meanv > 0.001 then "Bull"
  else "Normal"

/-- Sample variance with ddof=1, as pandas Series.std computes it. -/
noncomputable def pdVar (l : List ℝ) : ℝ :=
  (l.map (fun x => (x - listMean l) ^ 2)).sum / ((l.length : ℝ) - 1)

/-- pandas Series.std (ddof=1). -/
noncomputable def pdStd (l : List ℝ) : ℝ :=
  Real.sqrt (pdVar l)

/-- Rolling standard deviation with window k, pandas semantics: present only
when k observations ending at the position exist and none is missing. -/
noncomputable def rollingStd (k : Nat) (xs : List (Option ℝ)) :
    List (Option ℝ) :=
  (List.range xs.length).map (fun i =>
    if k ≤ i + 1 then
      let w := (xs.drop (i + 1 - k)).take k
      if w.all Option.isSome then some (pdStd (w.filterMap id)) else none
    else none)

/-- Feature rows (return, 5-day rolling std, 20-day rolling std) with any
missing entry dropped (trading_alert_system.py lines 211-218). -/
noncomputable def completeFeatures (returns : List (Option ℝ)) :
    List (ℝ × ℝ × ℝ) :=
  (returns.zip ((rollingStd 5 returns).zip (rollingStd 20 returns))).filterMap
    (fun q => match q with
      | (some r, some s5, some s20) => some (r, s5, s20)
      | _ => none)

/-- State label map built from a decoded state sequence
(trading_alert_system.py lines 231-258): a state with zero assigned days
gets no entry; otherwise its label comes from the mean and standard
deviation of the last len(features) returns restricted to its days (pandas
mean/std skip missing values). -/
noncomputable def stateLabels (states : List (Fin 4))
    (returns : List (Option ℝ)) : Fin 4 → Option String :=
  fun s =>
    if 0 < states.count s then
      let tail := returns.drop (returns.length - states.length)
      let sel := ((tail.zip states).filter (fun q => q.2 == s)).filterMap
        Prod.fst
      some (labelOf (listMean sel) (pdStd sel))
    else none

/-- train_hmm_model (trading_alert_system.py lines 204-260).  The
GaussianHMM fit and decode of hmmlearn are an external collaborator, modelled
by the predictSeq parameter; the guard, the per-state statistics and the
label map are embedded.  Returns none (the source returns (None, None)) when
fewer than 30 complete feature rows exist. -/
noncomputable def train_hmm_model
    (predictSeq : List (ℝ × ℝ × ℝ) → List (Fin 4))
    (returns : List (Option ℝ)) : Option (Fin 4 → Option String) :=
  let features := completeFeatures returns
  if features.length < 30 then none
  else some (stateLabels (predictSeq features) returns)

/-- Current-day feature vector (trading_alert_system.py lines 282-286): the
last return and the trailing 5- and 20-observation standard deviations
(pandas std skips missing values; a missing last return would be NaN in the
source and only feeds the abstract predictor). -/
noncomputable def lastFeature (returns : List (Option ℝ)) : ℝ × ℝ × ℝ :=
  ((returns.getLastD none).getD 0,
   pdStd ((returns.drop (returns.length - 5)).filterMap id),
   pdStd ((returns.drop (returns.length - 20)).filterMap id))

/-- Regime reported by calculate_current_state (trading_alert_system.py
lines 276-288): Unknown when no model was fitted, otherwise
state_labels.get(predicted state, Unknown).  predictOne models the
single-row model.predict call of the external collaborator. -/
noncomputable def calculate_current_regime
    (predictSeq : List (ℝ × ℝ × ℝ) → List (Fin 4))
    (predictOne : ℝ × ℝ × ℝ → Fin 4)
    (returns : List (Option ℝ)) : String :=
  match train_hmm_model predictSeq returns with
  | none => "Unknown"
  | some labels => (labels (predictOne (lastFeature returns))).getD "Unknown"

end RegimeClassifier

section ConcreteData

/-- MarketState satisfying both the SHORT and the LONG condition sets under
c1Thresholds. -/
def c1State : MarketState ℚ := ⟨some 0.5, 1, 22, "Volatile"⟩

/-- Threshold configuration under which c1State satisfies both condition
sets independently. -/
def c1Thresholds : Thresholds ℚ :=
  ⟨0.7, 0.9, 20, "Volatile", 0.8, 1.5, 25, "Volatile"⟩

/-- One-day-hold parameters for concrete trade runs. -/
def c2Params : BtParams ℚ := ⟨1, 0.2, 0.05, 0.03⟩

/-- Flat three-day series with no instrument data. -/
def c2Data : BtData ℚ := ⟨[100, 100, 100], [none, none, none]⟩

/-- Two-day series whose instrument price exists on the entry day only. -/
def c4Data : BtData ℚ := ⟨[100, 110], [some 10, none]⟩

/-- Single-day series: a signal here fires on the very last index. -/
def c10Data : BtData ℚ := ⟨[100], [none]⟩

/-- Default-style parameters (8-day hold). -/
def c10Params : BtParams ℚ := ⟨8, 0.2, 0.05, 0.03⟩

/-- Dip-buy configuration whose annual cap is below one base unit. -/
def c3Cfg : DipConfig ℚ := ⟨10000, 5000, -0.05, 1.05⟩

/-- Day with a 10 percent single-day drop. -/
def c3Day : DipDay ℚ := ⟨2000, 90, 100⟩

/-- Dip-buy configuration with the source constants. -/
def c8Cfg : DipConfig ℚ := ⟨10000, 300000, -0.05, 1.05⟩

/-- Day with a 6 percent drop: executes a base-unit purchase at 94. -/
def c8Day1 : DipDay ℚ := ⟨2000, 94, 100⟩

/-- Recovery day: 100 exceeds 94 times 1.05, with a positive sequence. -/
def c8Day2 : DipDay ℚ := ⟨2000, 100, 94⟩

/-- Second qualifying recovery day, reached with the sequence already 0. -/
def c8Day3 : DipDay ℚ := ⟨2000, 100, 100⟩

/-- Flat volatility-index series for the sentiment-proxy witness. -/
def c9Vix : List ℚ := [20, 20, 20, 20, 20]

/-- Flat returns series for the sentiment-proxy witness. -/
def c9Rets : List (Option ℚ) := [some 0, some 0, some 0, some 0, some 0]

/-- Trivial stand-in for the external HMM decode. -/
def c7PredictSeq : List (ℝ × ℝ × ℝ) → List (Fin 4) := fun _ => []

/-- Trivial stand-in for the external single-row HMM prediction. -/
def c7PredictOne : ℝ × ℝ × ℝ → Fin 4 := fun _ => 0

end ConcreteData

/-! Theorems. -/

/-- C1: check_signal returns at most one signal per MarketState; it evaluates
the SHORT condition set first, returns SHORT whenever all SHORT conditions
hold (in particular when the LONG conditions would also hold), and can
return LONG only when the SHORT conditions do not all hold. -/
theorem check_signal_short_priority {α : Type*} [LinearOrderedField α]
    (s : MarketState α) (t : Thresholds α) :
    ((shortConditions s t).allTrue = true →
      (check_signal s t).1 = some "SHORT")
    ∧ ((check_signal s t).1 = some "LONG" →
      (shortConditions s t).allTrue = false
        ∧ (longConditions s t).allTrue = true)
    ∧ ((check_signal s t).1 = none ∨ (check_signal s t).1 = some "SHORT"
        ∨ (check_signal s t).1 = some "LONG") := by
  unfold check_signal
  by_cases hs : (shortConditions s t).allTrue
  · simp [hs]
  · by_cases hl : (longConditions s t).allTrue <;> simp [hs, hl]

/-- C1 witness: a concrete state and thresholds under which the SHORT and the
LONG condition sets are both independently satisfied, and check_signal
returns SHORT. -/
theorem check_signal_short_priority_witness :
    (shortConditions c1State c1Thresholds).allTrue = true
    ∧ (longConditions c1State c1Thresholds).allTrue = true
    ∧ (check_signal c1State c1Thresholds).1 = some "SHORT" :=
  ⟨by norm_num [shortConditions, CondMap.allTrue, c1State, c1Thresholds],
   by norm_num [longConditions, CondMap.allTrue, c1State, c1Thresholds],
   (check_signal_short_priority c1State c1Thresholds).1
     (by norm_num [shortConditions, CondMap.allTrue, c1State, c1Thresholds])⟩

section DipBuyProofs

variable {α : Type*} [LinearOrderedField α]

/-- Helper: the reset check touches only buy_sequence and resets. -/
theorem resetPhase_preserves (cfg : DipConfig α) (st : DipState α)
    (day : DipDay α) :
    (resetPhase cfg st day).annual_spending = st.annual_spending
    ∧ (resetPhase cfg st day).last_purchase_price = st.last_purchase_price
    ∧ (resetPhase cfg st day).skips = st.skips
    ∧ (resetPhase cfg st day).buys = st.buys
    ∧ (resetPhase cfg st day).qqq_shares = st.qqq_shares
    ∧ (resetPhase cfg st day).total_invested = st.total_invested
    ∧ (resetPhase cfg st day).last_10k_price = st.last_10k_price := by
  unfold resetPhase
  rcases hl : st.last_10k_price with _ | p10
  · simp [hl]
  · simp only [hl]
    split_ifs <;> simp [hl]

/-- Helper: soundness and maximality of the countdown search. -/
theorem smartSizeLoop_spec (cfg : DipConfig α) (remaining : α) :
    ∀ n k, smartSizeLoop cfg remaining n = some k →
      1 ≤ k ∧ k ≤ n ∧ (k : α) * cfg.base_buy_amount ≤ remaining
        ∧ ∀ m, k < m → m ≤ n →
            ¬((m : α) * cfg.base_buy_amount ≤ remaining) := by
  intro n
  induction n with
  | zero => intro k h; simp [smartSizeLoop] at h
  | succ n ih =>
    intro k h
    rw [smartSizeLoop] at h
    split_ifs at h with hfit
    · obtain rfl : n + 1 = k := by simpa using h
      refine ⟨Nat.succ_le_succ (Nat.zero_le n), le_refl _, hfit, ?_⟩
      intro m hm hm'
      omega
    · obtain ⟨h1, h2, h3, h4⟩ := ih k h
      refine ⟨h1, Nat.le_succ_of_le h2, h3, ?_⟩
      intro m hm hm'
      rcases Nat.lt_or_ge m (n + 1) with hlt | hge
      · exact h4 m hm (Nat.lt_succ_iff.mp hlt)
      · obtain rfl : m = n + 1 := le_antisymm hm' hge
        exact hfit

/-- Helper: the countdown search fails when no multiple fits. -/
theorem smartSizeLoop_none (cfg : DipConfig α) (remaining : α) :
    ∀ (n : Nat), (∀ (m : Nat), 1 ≤ m → m ≤ n →
        ¬((m : α) * cfg.base_buy_amount ≤ remaining)) →
      smartSizeLoop cfg remaining n = none := by
  intro n
  induction n with
  | zero => intro _; rfl
  | succ n ih =>
    intro h
    rw [smartSizeLoop]
    rw [if_neg (h (n + 1) (Nat.succ_le_succ (Nat.zero_le n)) (le_refl _))]
    exact ih fun m h1 h2 => h m h1 (Nat.le_succ_of_le h2)

/-- Helper: any executed amount is bounded by the remaining cap. -/
theorem smartSize_le (cfg : DipConfig α) (seq : Nat) (remaining a : α)
    (h : smartSize cfg seq remaining = some a) : a ≤ remaining := by
  unfold smartSize at h
  rcases hk : smartSizeLoop cfg remaining (seq + 1) with _ | k
  · rw [hk] at h; simp at h
  · rw [hk] at h
    obtain rfl : (k : α) * cfg.base_buy_amount = a := by simpa using h
    exact (smartSizeLoop_spec cfg remaining (seq + 1) k hk).2.2.1

/-- Helper: one dip-buy step keeps every annual spend at or below the cap. -/
theorem dipStep_spending_le (cfg : DipConfig α) (st : DipState α)
    (day : DipDay α) (h : ∀ y, st.annual_spending y ≤ cfg.annual_cap) :
    ∀ y, (dipStep cfg st day).annual_spending y ≤ cfg.annual_cap := by
  have hs1 := (resetPhase_preserves cfg st day).1
  intro y
  unfold dipStep triggerPhase
  split_ifs with htrig
  · rcases hss : smartSize cfg (resetPhase cfg st day).buy_sequence
        (cfg.annual_cap -
          (resetPhase cfg st day).annual_spending day.year) with _ | amt
    · show (resetPhase cfg st day).annual_spending y ≤ cfg.annual_cap
      rw [hs1]
      exact h y
    · show (if amt ≥ cfg.base_buy_amount then
          executeBuy cfg (resetPhase cfg st day) day amt
        else recordSkip cfg (resetPhase cfg st day) day).annual_spending y
          ≤ cfg.annual_cap
      by_cases hbig : amt ≥ cfg.base_buy_amount
      · rw [if_pos hbig]
        show (if y = day.year then
            (resetPhase cfg st day).annual_spending day.year + amt
          else (resetPhase cfg st day).annual_spending y) ≤ cfg.annual_cap
        by_cases hy : y = day.year
        · rw [if_pos hy]
          exact le_sub_iff_add_le'.mp (smartSize_le _ _ _ _ hss)
        · rw [if_neg hy, hs1]
          exact h y
      · rw [if_neg hbig]
        show (resetPhase cfg st day).annual_spending y ≤ cfg.annual_cap
        rw [hs1]
        exact h y
  · show (resetPhase cfg st day).annual_spending y ≤ cfg.annual_cap
    rw [hs1]
    exact h y

/-- Helper: the annual-spend bound is preserved along any fold of steps. -/
theorem runDip_foldl_spending_le (cfg : DipConfig α) :
    ∀ (days : List (DipDay α)) (st : DipState α),
      (∀ y, st.annual_spending y ≤ cfg.annual_cap) →
      ∀ y, (days.foldl (dipStep cfg) st).annual_spending y ≤
        cfg.annual_cap := by
  intro days
  induction days with
  | nil => intro st h y; exact h y
  | cons d rest ih =>
      intro st h y
      exact ih (dipStep cfg st d) (dipStep_spending_le cfg st d h) y

/-- C3: the dip-buy policy never spends more than annual_cap in any calendar
year; an executed purchase is the largest multiple of the base unit, with the
multiple searched downward from buy_sequence + 1 to 1, that fits the
remaining cap; and when even one base unit does not fit a triggered
opportunity is recorded as a skip and no purchase occurs. -/
theorem dip_buy_cap_discipline {α : Type*} [LinearOrderedField α]
    (cfg : DipConfig α) :
    (0 ≤ cfg.annual_cap → ∀ (days : List (DipDay α)) (y : Nat),
      (runDip cfg days).annual_spending y ≤ cfg.annual_cap)
    ∧ (∀ (seq : Nat) (remaining a : α), smartSize cfg seq remaining = some a →
        ∃ k : Nat, 1 ≤ k ∧ k ≤ seq + 1
          ∧ a = (k : α) * cfg.base_buy_amount
          ∧ (k : α) * cfg.base_buy_amount ≤ remaining
          ∧ ∀ m : Nat, k < m → m ≤ seq + 1 →
              ¬((m : α) * cfg.base_buy_amount ≤ remaining))
    ∧ (0 < cfg.base_buy_amount → ∀ (st : DipState α) (day : DipDay α),
        dipTriggered cfg (resetPhase cfg st day) day = true →
        cfg.annual_cap - st.annual_spending day.year < cfg.base_buy_amount →
        dipStep cfg st day = recordSkip cfg (resetPhase cfg st day) day
        ∧ (dipStep cfg st day).buys = st.buys
        ∧ (dipStep cfg st day).skips.length = st.skips.length + 1
        ∧ (dipStep cfg st day).qqq_shares = st.qqq_shares
        ∧ (dipStep cfg st day).total_invested = st.total_invested
        ∧ (dipStep cfg st day).annual_spending = st.annual_spending) := by
  refine ⟨?_, ?_, ?_⟩
  · intro hcap days y
    exact runDip_foldl_spending_le cfg days dipInit (fun _ => hcap) y
  · intro seq remaining a h
    unfold smartSize at h
    rcases hk : smartSizeLoop cfg remaining (seq + 1) with _ | k
    · rw [hk] at h; simp at h
    · rw [hk] at h
      obtain rfl : (k : α) * cfg.base_buy_amount = a := by simpa using h
      obtain ⟨h1, h2, h3, h4⟩ := smartSizeLoop_spec cfg remaining (seq + 1) k hk
      exact ⟨k, h1, h2, rfl, h3, h4⟩
  · intro hbase st day htrig hrem
    obtain ⟨hs1, -, hsk, hbuys, hsh, hinv, -⟩ := resetPhase_preserves cfg st day
    have hloop : smartSizeLoop cfg
        (cfg.annual_cap - (resetPhase cfg st day).annual_spending day.year)
        ((resetPhase cfg st day).buy_sequence + 1) = none := by
      refine smartSizeLoop_none cfg _ _ ?_
      intro m h1m _ hfit
      have hbm : cfg.base_buy_amount ≤ (m : α) * cfg.base_buy_amount :=
        le_mul_of_one_le_left (le_of_lt hbase)
          (by exact_mod_cast h1m)
      rw [hs1] at hfit
      exact absurd hfit (not_le.mpr (lt_of_lt_of_le hrem hbm))
    have hnone : smartSize cfg (resetPhase cfg st day).buy_sequence
        (cfg.annual_cap - (resetPhase cfg st day).annual_spending day.year)
        = none := by
      unfold smartSize
      rw [hloop]
      rfl
    have hstep : dipStep cfg st day =
        recordSkip cfg (resetPhase cfg st day) day := by
      unfold dipStep triggerPhase
      rw [if_pos htrig, hnone]
    refine ⟨hstep, ?_, ?_, ?_, ?_, ?_⟩ <;> rw [hstep]
    · show (resetPhase cfg st day).buys = st.buys
      exact hbuys
    · show ((resetPhase cfg st day).skips ++ [_]).length = st.skips.length + 1
      rw [List.length_append, hsk]
      rfl
    · show (resetPhase cfg st day).qqq_shares = st.qqq_shares
      exact hsh
    · show (resetPhase cfg st day).total_invested = st.total_invested
      exact hinv
    · show (resetPhase cfg st day).annual_spending = st.annual_spending
      exact hs1

/-- C3 witness: with an annual cap of 5000 and a base unit of 10000, a
triggered day is skipped with no purchase. -/
theorem dip_buy_cap_discipline_witness :
    (dipStep c3Cfg (dipInit : DipState ℚ) c3Day).buys =
      (dipInit : DipState ℚ).buys
    ∧ (dipStep c3Cfg (dipInit : DipState ℚ) c3Day).total_invested =
      (dipInit : DipState ℚ).total_invested :=
  ⟨((dip_buy_cap_discipline c3Cfg).2.2 (by norm_num [c3Cfg]) dipInit c3Day
      (by norm_num [dipTriggered, resetPhase, dipInit, c3Cfg, c3Day])
      (by norm_num [c3Cfg, dipInit, c3Day])).2.1,
   ((dip_buy_cap_discipline c3Cfg).2.2 (by norm_num [c3Cfg]) dipInit c3Day
      (by norm_num [dipTriggered, resetPhase, dipInit, c3Cfg, c3Day])
      (by norm_num [c3Cfg, dipInit, c3Day])).2.2.2.2.1⟩

/-- Helper: behaviour of the reset check on a qualifying day. -/
theorem resetPhase_of_exceeds (cfg : DipConfig α) (st : DipState α)
    (day : DipDay α) (p10 : α) (hl : st.last_10k_price = some p10)
    (hgt : day.price > p10 * cfg.reset_threshold) :
    (resetPhase cfg st day).buy_sequence = 0
    ∧ (0 < st.buy_sequence →
        (resetPhase cfg st day).resets = st.resets ++ [⟨day.price⟩])
    ∧ (st.buy_sequence = 0 → resetPhase cfg st day = st) := by
  unfold resetPhase
  simp only [hl]
  rw [if_pos hgt]
  by_cases hpos : st.buy_sequence > 0
  · rw [if_pos hpos]
    exact ⟨rfl, fun _ => rfl, fun h0 => absurd h0 (by omega)⟩
  · rw [if_neg hpos]
    exact ⟨by omega, fun h => absurd h hpos, fun _ => rfl⟩

/-- Helper: the reset check does not affect the trigger condition. -/
theorem dipTriggered_resetPhase (cfg : DipConfig α) (st : DipState α)
    (day : DipDay α) :
    dipTriggered cfg (resetPhase cfg st day) day =
      dipTriggered cfg st day := by
  unfold dipTriggered
  rw [(resetPhase_preserves cfg st day).2.1]

/-- Helper: from a restarted sequence, a funded trigger buys one base unit. -/
theorem smartSize_zero (cfg : DipConfig α) (remaining : α)
    (h : cfg.base_buy_amount ≤ remaining) :
    smartSize cfg 0 remaining = some cfg.base_buy_amount := by
  unfold smartSize smartSizeLoop
  rw [if_pos (by simpa using h)]
  simp

/-- Helper: one trigger phase either leaves buys and the sequence unchanged
or appends exactly one buy and increments the sequence by exactly one. -/
theorem triggerPhase_cases (cfg : DipConfig α) (st : DipState α)
    (day : DipDay α) :
    ((triggerPhase cfg st day).buys = st.buys
      ∧ (triggerPhase cfg st day).buy_sequence = st.buy_sequence)
    ∨ (∃ r, (triggerPhase cfg st day).buys = st.buys ++ [r]
      ∧ (triggerPhase cfg st day).buy_sequence = st.buy_sequence + 1) := by
  unfold triggerPhase
  by_cases ht : dipTriggered cfg st day
  · rw [if_pos ht]
    rcases hsm : smartSize cfg st.buy_sequence
        (cfg.annual_cap - st.annual_spending day.year) with _ | amt
    · left
      exact ⟨rfl, rfl⟩
    · by_cases hbig : amt ≥ cfg.base_buy_amount
      · right
        refine ⟨⟨day.price, amt, st.buy_sequence + 1, day.year⟩, ?_, ?_⟩
        · show (if amt ≥ cfg.base_buy_amount then executeBuy cfg st day amt
            else recordSkip cfg st day).buys = _
          rw [if_pos hbig]
          rfl
        · show (if amt ≥ cfg.base_buy_amount then executeBuy cfg st day amt
            else recordSkip cfg st day).buy_sequence = _
          rw [if_pos hbig]
          rfl
      · left
        constructor
        · show (if amt ≥ cfg.base_buy_amount then executeBuy cfg st day amt
            else recordSkip cfg st day).buys = _
          rw [if_neg hbig]
          rfl
        · show (if amt ≥ cfg.base_buy_amount then executeBuy cfg st day amt
            else recordSkip cfg st day).buy_sequence = _
          rw [if_neg hbig]
          rfl
  · rw [if_neg ht]
    left
    exact ⟨rfl, rfl⟩

/-- C8 (amended): on a day whose price exceeds last_10k_price times the reset
threshold the sequence is 0 after the reset check, with a reset event
recorded exactly when the sequence was positive (a day already at 0 records
no event); the reset check precedes the trigger check, so a funded trigger
on such a day buys exactly one base unit and restarts the sequence at 1;
and on days without a qualifying recovery the sequence is non-decreasing,
incrementing by exactly 1 on each executed purchase. -/
theorem dip_reset_semantics {α : Type*} [LinearOrderedField α]
    (cfg : DipConfig α) (st : DipState α) (day : DipDay α) :
    (∀ p10, st.last_10k_price = some p10 →
        day.price > p10 * cfg.reset_threshold →
        (resetPhase cfg st day).buy_sequence = 0
        ∧ (0 < st.buy_sequence →
            (resetPhase cfg st day).resets = st.resets ++ [⟨day.price⟩])
        ∧ (st.buy_sequence = 0 → resetPhase cfg st day = st))
    ∧ (∀ p10, st.last_10k_price = some p10 →
        day.price > p10 * cfg.reset_threshold →
        dipTriggered cfg st day = true →
        cfg.base_buy_amount ≤
          cfg.annual_cap - st.annual_spending day.year →
        (dipStep cfg st day).buy_sequence = 1
        ∧ ∃ r : BuyRec α, (dipStep cfg st day).buys = st.buys ++ [r]
            ∧ r.amount = cfg.base_buy_amount ∧ r.sequence = 1)
    ∧ ((∀ p10, st.last_10k_price = some p10 →
          ¬(day.price > p10 * cfg.reset_threshold)) →
        st.buy_sequence ≤ (dipStep cfg st day).buy_sequence
        ∧ (((dipStep cfg st day).buys = st.buys
            ∧ (dipStep cfg st day).buy_sequence = st.buy_sequence)
          ∨ (∃ r, (dipStep cfg st day).buys = st.buys ++ [r]
            ∧ (dipStep cfg st day).buy_sequence = st.buy_sequence + 1))) := by
  refine ⟨fun p10 hl hgt => resetPhase_of_exceeds cfg st day p10 hl hgt,
    ?_, ?_⟩
  · intro p10 hl hgt htrig hfit
    have hz := (resetPhase_of_exceeds cfg st day p10 hl hgt).1
    have hsp := (resetPhase_preserves cfg st day).1
    have hbuys := (resetPhase_preserves cfg st day).2.2.2.1
    have htrig' : dipTriggered cfg (resetPhase cfg st day) day = true := by
      rw [dipTriggered_resetPhase]
      exact htrig
    have hstep : dipStep cfg st day =
        executeBuy cfg (resetPhase cfg st day) day cfg.base_buy_amount := by
      unfold dipStep triggerPhase
      rw [if_pos htrig', hz, hsp, smartSize_zero cfg _ hfit]
      show (if cfg.base_buy_amount ≥ cfg.base_buy_amount then
          executeBuy cfg (resetPhase cfg st day) day cfg.base_buy_amount
        else recordSkip cfg (resetPhase cfg st day) day) = _
      rw [if_pos (le_refl _)]
    constructor
    · rw [hstep]
      show (resetPhase cfg st day).buy_sequence + 1 = 1
      rw [hz]
    · refine ⟨⟨day.price, cfg.base_buy_amount, 1, day.year⟩, ?_, rfl, rfl⟩
      rw [hstep]
      show (resetPhase cfg st day).buys ++
        [⟨day.price, cfg.base_buy_amount,
          (resetPhase cfg st day).buy_sequence + 1, day.year⟩] = _
      rw [hbuys, hz]
  · intro hnr
    have hrp : resetPhase cfg st day = st := by
      unfold resetPhase
      rcases hl : st.last_10k_price with _ | p10
      · simp only [hl]
      · simp only [hl]
        rw [if_neg (hnr p10 hl)]
    have hd : dipStep cfg st day = triggerPhase cfg st day := by
      unfold dipStep
      rw [hrp]
    rw [hd]
    rcases triggerPhase_cases cfg st day with ⟨hb, hs⟩ | ⟨r, hb, hs⟩
    · exact ⟨by omega, Or.inl ⟨hb, hs⟩⟩
    · exact ⟨by omega, Or.inr ⟨r, hb, hs⟩⟩

/-- C8 witness for the amended claim: after a base-unit purchase at 94, a
recovery day at 100 resets the sequence to 0 and records a reset event. -/
theorem dip_reset_semantics_witness :
    (resetPhase c8Cfg (runDip c8Cfg [c8Day1]) c8Day2).buy_sequence = 0
    ∧ (resetPhase c8Cfg (runDip c8Cfg [c8Day1]) c8Day2).resets
        = (runDip c8Cfg [c8Day1]).resets ++ [⟨c8Day2.price⟩] := by
  have hl : (runDip c8Cfg [c8Day1]).last_10k_price = some 94 := by
    norm_num [runDip, dipStep, resetPhase, triggerPhase, executeBuy,
      recordSkip, dipTriggered, smartSize, smartSizeLoop, dipInit, c8Cfg,
      c8Day1]
  have hpos : 0 < (runDip c8Cfg [c8Day1]).buy_sequence := by
    norm_num [runDip, dipStep, resetPhase, triggerPhase, executeBuy,
      recordSkip, dipTriggered, smartSize, smartSizeLoop, dipInit, c8Cfg,
      c8Day1]
  have h := (dip_reset_semantics c8Cfg (runDip c8Cfg [c8Day1]) c8Day2).1 94
    hl (by norm_num [c8Day2, c8Cfg])
  exact ⟨h.1, h.2.1 hpos⟩

/-- C8 counterexample to the claim as stated: after the reset at day 2, a
second qualifying recovery day finds the sequence already 0 and records no
reset event, so the resets list is unchanged on a day whose price exceeds
last_10k_price times the reset threshold. -/
theorem dip_reset_event_cex :
    (runDip c8Cfg [c8Day1, c8Day2]).last_10k_price = some 94
    ∧ c8Day3.price > 94 * c8Cfg.reset_threshold
    ∧ (dipStep c8Cfg (runDip c8Cfg [c8Day1, c8Day2]) c8Day3).resets
        = (runDip c8Cfg [c8Day1, c8Day2]).resets
    ∧ (runDip c8Cfg [c8Day1, c8Day2]).resets.length = 1 := by
  norm_num [runDip, dipStep, resetPhase, triggerPhase, executeBuy,
    recordSkip, dipTriggered, smartSize, smartSizeLoop, dipInit, c8Cfg,
    c8Day1, c8Day2, c8Day3]

end DipBuyProofs

section TradeSimProofs

variable {α : Type*} [LinearOrderedField α]

/-- Helper: the four-way case split on an exit reason. -/
theorem ExitReason.four_cases (r : ExitReason) :
    r = ExitReason.gainTarget ∨ r = ExitReason.stopLoss
    ∨ r = ExitReason.timeExit ∨ r = ExitReason.endOfData := by
  cases r <;> simp

/-- Helper: what a fired daily exit check implies, by the if-chain order:
a stop-loss exit means the gain target had not been reached that day, a time
exit means neither the gain target nor the stop loss had been hit, and the
daily check never yields END OF DATA. -/
theorem exitCheckAt_priority (p : BtParams α) (d : BtData α) (i : Nat)
    (entrySpy entrySpxs : α) (useReal : Bool) (j : Nat) (r : ExitReason)
    (h : exitCheckAt p d i entrySpy entrySpxs useReal j = some r) :
    (r = ExitReason.gainTarget →
      spxsReturnAt d entrySpy entrySpxs useReal j ≥ p.gainTarget)
    ∧ (r = ExitReason.stopLoss →
      ¬(spxsReturnAt d entrySpy entrySpxs useReal j ≥ p.gainTarget)
      ∧ spxsReturnAt d entrySpy entrySpxs useReal j ≤ -p.stopLoss)
    ∧ (r = ExitReason.timeExit →
      ¬(spxsReturnAt d entrySpy entrySpxs useReal j ≥ p.gainTarget)
      ∧ ¬(spxsReturnAt d entrySpy entrySpxs useReal j ≤ -p.stopLoss)
      ∧ j - i ≥ p.holdDays)
    ∧ r ≠ ExitReason.endOfData := by
  unfold exitCheckAt at h
  by_cases h1 : spxsReturnAt d entrySpy entrySpxs useReal j ≥ p.gainTarget
  · rw [if_pos h1] at h
    obtain rfl : ExitReason.gainTarget = r := by simpa using h
    exact ⟨fun _ => h1, by simp, by simp, by simp⟩
  · rw [if_neg h1] at h
    by_cases h2 : spxsReturnAt d entrySpy entrySpxs useReal j ≤ -p.stopLoss
    · rw [if_pos h2] at h
      obtain rfl : ExitReason.stopLoss = r := by simpa using h
      exact ⟨by simp, fun _ => ⟨h1, h2⟩, by simp, by simp⟩
    · rw [if_neg h2] at h
      by_cases h3 : j - i ≥ p.holdDays
      · rw [if_pos h3] at h
        obtain rfl : ExitReason.timeExit = r := by simpa using h
        exact ⟨by simp, by simp, fun _ => ⟨h1, h2, h3⟩, by simp⟩
      · rw [if_neg h3] at h
        simp at h

/-- Helper: soundness of the first-exit scan over a contiguous index range:
the found index is in range, its check fires with the found reason, and every
strictly earlier index in range yields no exit. -/
theorem firstExit_spec (f : Nat → Option ExitReason) :
    ∀ (n s j : Nat) (r : ExitReason),
      firstExit f (List.range' s n) = some (j, r) →
      s ≤ j ∧ j < s + n ∧ f j = some r
        ∧ ∀ k, s ≤ k → k < j → f k = none := by
  intro n
  induction n with
  | zero => intro s j r h; simp [firstExit] at h
  | succ n ih =>
    intro s j r h
    rw [List.range'_succ] at h
    rw [firstExit] at h
    rcases hf : f s with _ | r0
    · rw [hf] at h
      obtain ⟨h1, h2, h3, h4⟩ := ih (s + 1) j r h
      refine ⟨by omega, by omega, h3, ?_⟩
      intro k hk hkj
      rcases Nat.eq_or_lt_of_le hk with rfl | hlt
      · exact hf
      · exact h4 k hlt hkj
    · rw [hf] at h
      obtain ⟨rfl, rfl⟩ : s = j ∧ r0 = r := by simpa using h
      exact ⟨le_refl _, by omega, hf,
        fun k hk hkj => absurd hkj (by omega)⟩

/-- Helper: a completed scan means no index in range fires an exit. -/
theorem firstExit_none (f : Nat → Option ExitReason) :
    ∀ (n s : Nat), firstExit f (List.range' s n) = none →
      ∀ k, s ≤ k → k < s + n → f k = none := by
  intro n
  induction n with
  | zero => intro s _ k hk hk'; omega
  | succ n ih =>
    intro s h k hk hk'
    rw [List.range'_succ] at h
    rw [firstExit] at h
    rcases hf : f s with _ | r0
    · rw [hf] at h
      rcases Nat.eq_or_lt_of_le hk with rfl | hlt
      · exact hf
      · exact ih (s + 1) h k hlt (by omega)
    · rw [hf] at h
      simp at h

/-- C2: for every opened position the simulator produces one trade whose exit
reason is exactly one of the four; days held never exceed the configured
maximum; for a monitored exit the daily check at the exit index fires with
the recorded reason and no earlier monitored day fires; an END OF DATA exit
means no monitored day fired; and the daily check respects the fixed
priority order gain target, then stop loss, then time limit. -/
theorem run_backtest_exit_discipline {α : Type*} [LinearOrderedField α]
    (p : BtParams α) (d : BtData α) (i : Nat) (pv : α) :
    ((openTrade p d i pv).reason = ExitReason.gainTarget
      ∨ (openTrade p d i pv).reason = ExitReason.stopLoss
      ∨ (openTrade p d i pv).reason = ExitReason.timeExit
      ∨ (openTrade p d i pv).reason = ExitReason.endOfData)
    ∧ (openTrade p d i pv).daysHeld ≤ p.holdDays
    ∧ ((openTrade p d i pv).reason ≠ ExitReason.endOfData →
        exitCheckAt p d i (d.close.getD i 0) (entrySpxsOf d i).1
            (entrySpxsOf d i).2 (openTrade p d i pv).exitIdx
          = some (openTrade p d i pv).reason
        ∧ ∀ k, i + 1 ≤ k → k < (openTrade p d i pv).exitIdx →
            exitCheckAt p d i (d.close.getD i 0) (entrySpxsOf d i).1
              (entrySpxsOf d i).2 k = none)
    ∧ ((openTrade p d i pv).reason = ExitReason.endOfData →
        ∀ k, i + 1 ≤ k → k < min (i + p.holdDays + 1) d.close.length →
          exitCheckAt p d i (d.close.getD i 0) (entrySpxsOf d i).1
            (entrySpxsOf d i).2 k = none)
    ∧ (∀ j r, exitCheckAt p d i (d.close.getD i 0) (entrySpxsOf d i).1
          (entrySpxsOf d i).2 j = some r →
        (r = ExitReason.stopLoss →
          ¬(spxsReturnAt d (d.close.getD i 0) (entrySpxsOf d i).1
              (entrySpxsOf d i).2 j ≥ p.gainTarget))
        ∧ (r = ExitReason.timeExit →
          ¬(spxsReturnAt d (d.close.getD i 0) (entrySpxsOf d i).1
              (entrySpxsOf d i).2 j ≥ p.gainTarget)
          ∧ ¬(spxsReturnAt d (d.close.getD i 0) (entrySpxsOf d i).1
              (entrySpxsOf d i).2 j ≤ -p.stopLoss))) := by
  have hmin1 : min (i + p.holdDays + 1) d.close.length ≤
      i + p.holdDays + 1 := Nat.min_le_left _ _
  have hmin2 : min (i + p.holdDays) (d.close.length - 1) ≤
      i + p.holdDays := Nat.min_le_left _ _
  rcases hfe : firstExit
      (exitCheckAt p d i (d.close.getD i 0) (entrySpxsOf d i).1
        (entrySpxsOf d i).2) (monitorIdxs p d i) with _ | jr
  · have ho : openTrade p d i pv =
        closeTradeAt p d i pv (min (i + p.holdDays) (d.close.length - 1))
          ExitReason.endOfData
          (monitoredSpxs d (d.close.getD i 0) (entrySpxsOf d i).1
            (entrySpxsOf d i).2
            (min (i + p.holdDays) (d.close.length - 1))) := by
      simp only [openTrade]
      rw [hfe]
    have hfe' : firstExit
        (exitCheckAt p d i (d.close.getD i 0) (entrySpxsOf d i).1
          (entrySpxsOf d i).2)
        (List.range' (i + 1)
          (min (i + p.holdDays + 1) d.close.length - (i + 1))) = none := hfe
    have hnone := firstExit_none _ _ _ hfe'
    refine ⟨?_, ?_, ?_, ?_, ?_⟩
    · rw [ho]
      exact ExitReason.four_cases _
    · rw [ho]
      show min (i + p.holdDays) (d.close.length - 1) - i ≤ p.holdDays
      omega
    · rw [ho]
      intro hne
      exact absurd rfl hne
    · rw [ho]
      intro _ k hk hk'
      exact hnone k hk (by omega)
    · intro j r h
      obtain ⟨-, h2, h3, -⟩ := exitCheckAt_priority p d i _ _ _ j r h
      exact ⟨fun hr => (h2 hr).1, fun hr => ⟨(h3 hr).1, (h3 hr).2.1⟩⟩
  · obtain ⟨j, r⟩ := jr
    have ho : openTrade p d i pv =
        closeTradeAt p d i pv j r
          (monitoredSpxs d (d.close.getD i 0) (entrySpxsOf d i).1
            (entrySpxsOf d i).2 j) := by
      simp only [openTrade]
      rw [hfe]
    have hfe' : firstExit
        (exitCheckAt p d i (d.close.getD i 0) (entrySpxsOf d i).1
          (entrySpxsOf d i).2)
        (List.range' (i + 1)
          (min (i + p.holdDays + 1) d.close.length - (i + 1)))
        = some (j, r) := hfe
    obtain ⟨hj1, hj2, hj3, hj4⟩ := firstExit_spec _ _ _ _ _ hfe'
    have hjle : j ≤ i + p.holdDays := by omega
    refine ⟨?_, ?_, ?_, ?_, ?_⟩
    · rw [ho]
      exact ExitReason.four_cases _
    · rw [ho]
      show j - i ≤ p.holdDays
      omega
    · rw [ho]
      intro _
      exact ⟨hj3, fun k hk hk' => hj4 k hk hk'⟩
    · rw [ho]
      intro hr
      exact absurd hr (exitCheckAt_priority p d i _ _ _ j r hj3).2.2.2
    · intro j' r' h
      obtain ⟨-, h2, h3, -⟩ := exitCheckAt_priority p d i _ _ _ j' r' h
      exact ⟨fun hr => (h2 hr).1, fun hr => ⟨(h3 hr).1, (h3 hr).2.1⟩⟩

/-- C2 witness: a concrete flat series with a one-day hold exits by the time
limit on day 1, with the daily check firing there and the hold bound met. -/
theorem run_backtest_exit_discipline_witness :
    (openTrade c2Params c2Data 0 100000).daysHeld ≤ c2Params.holdDays
    ∧ exitCheckAt c2Params c2Data 0 ((c2Data.close).getD 0 0)
        (entrySpxsOf c2Data 0).1 (entrySpxsOf c2Data 0).2
        (openTrade c2Params c2Data 0 100000).exitIdx
      = some (openTrade c2Params c2Data 0 100000).reason := by
  have hne : (openTrade c2Params c2Data 0 100000).reason ≠
      ExitReason.endOfData := by
    norm_num [openTrade, closeTradeAt, firstExit, monitorIdxs, exitCheckAt,
      spxsReturnAt, monitoredSpxs, usesRealPriceAt, entrySpxsOf,
      simulate_3x_inverse, c2Params, c2Data, List.range']
    decide
  exact ⟨(run_backtest_exit_discipline c2Params c2Data 0 100000).2.1,
    ((run_backtest_exit_discipline c2Params c2Data 0 100000).2.2.1 hne).1⟩

/-- C10: a SHORT signal on the very last index of the series produces a
well-formed degenerate trade: exit index equals the entry index, zero days
held, reason END OF DATA, zero benchmark and instrument returns, and an
unchanged portfolio value. -/
theorem last_index_trade_degenerate {α : Type*} [LinearOrderedField α]
    (p : BtParams α) (d : BtData α) (pv : α) (h0 : 0 < d.close.length) :
    (openTrade p d (d.close.length - 1) pv).exitIdx = d.close.length - 1
    ∧ (openTrade p d (d.close.length - 1) pv).daysHeld = 0
    ∧ (openTrade p d (d.close.length - 1) pv).reason = ExitReason.endOfData
    ∧ (openTrade p d (d.close.length - 1) pv).spyReturn = 0
    ∧ (openTrade p d (d.close.length - 1) pv).spxsReturn = 0
    ∧ (openTrade p d (d.close.length - 1) pv).portfolioAfter = pv := by
  set i := d.close.length - 1 with hi
  have hempty : monitorIdxs p d i = [] := by
    unfold monitorIdxs
    have hz : min (i + p.holdDays + 1) d.close.length - (i + 1) = 0 := by
      have := Nat.min_le_right (i + p.holdDays + 1) d.close.length
      omega
    rw [hz]
    rfl
  have hfe : firstExit (exitCheckAt p d i (d.close.getD i 0)
      (entrySpxsOf d i).1 (entrySpxsOf d i).2) (monitorIdxs p d i)
      = none := by
    rw [hempty]
    rfl
  have hmin : min (i + p.holdDays) (d.close.length - 1) = i := by
    have := Nat.min_le_right (i + p.holdDays) (d.close.length - 1)
    omega
  have ho : openTrade p d i pv = closeTradeAt p d i pv i
      ExitReason.endOfData
      (monitoredSpxs d (d.close.getD i 0) (entrySpxsOf d i).1
        (entrySpxsOf d i).2 i) := by
    simp only [openTrade]
    rw [hfe, hmin]
  have hespxs : monitoredSpxs d (d.close.getD i 0) (entrySpxsOf d i).1
      (entrySpxsOf d i).2 i = (entrySpxsOf d i).1 := by
    unfold monitoredSpxs usesRealPriceAt entrySpxsOf
    rcases hs : d.spxs.getD i none with _ | q
    · simp [hs, simulate_3x_inverse, sub_self]
    · simp [hs]
  have hspy : (d.close.getD i 0 - d.close.getD i 0) / d.close.getD i 0
      = 0 := by
    rw [sub_self, zero_div]
  refine ⟨?_, ?_, ?_, ?_, ?_, ?_⟩ <;> rw [ho]
  · rfl
  · show i - i = 0
    omega
  · rfl
  · exact hspy
  · show (monitoredSpxs d (d.close.getD i 0) (entrySpxsOf d i).1
        (entrySpxsOf d i).2 i - (entrySpxsOf d i).1) / (entrySpxsOf d i).1
      = 0
    rw [hespxs, sub_self, zero_div]
  · show (pv - pv * p.positionPct) *
        (1 + (d.close.getD i 0 - d.close.getD i 0) / d.close.getD i 0)
      + pv * p.positionPct *
        (1 + (monitoredSpxs d (d.close.getD i 0) (entrySpxsOf d i).1
            (entrySpxsOf d i).2 i - (entrySpxsOf d i).1) /
          (entrySpxsOf d i).1) = pv
    rw [hespxs, hspy, sub_self, zero_div]
    ring

/-- C10 witness: the degenerate trade on a one-day series. -/
theorem last_index_trade_degenerate_witness :
    (openTrade c10Params c10Data 0 100000).daysHeld = 0
    ∧ (openTrade c10Params c10Data 0 100000).reason = ExitReason.endOfData
    ∧ (openTrade c10Params c10Data 0 100000).portfolioAfter = 100000 := by
  have h := last_index_trade_degenerate c10Params c10Data (100000 : ℚ)
    (by norm_num [c10Data])
  norm_num [c10Data] at h
  exact ⟨h.2.1, h.2.2.1, h.2.2.2.2.2⟩

/-- C4 (amended): when the entry price is synthetic every monitored and exit
price follows the synthetic -3x benchmark-return model; when the entry price
is real, a monitored day uses the real instrument price exactly when one is
present and falls back to the synthetic model when it is absent — so real
and synthetic pricing can mix inside one trade exactly when the real price
series has gaps among the monitored days; and the trade exit price is always
selected by this same per-day rule at the exit index. -/
theorem trade_pricing_fallback {α : Type*} [LinearOrderedField α]
    (p : BtParams α) (d : BtData α) (i : Nat) (pv : α) :
    ((entrySpxsOf d i).2 = false → ∀ j,
        monitoredSpxs d (d.close.getD i 0) (entrySpxsOf d i).1
            (entrySpxsOf d i).2 j
          = (entrySpxsOf d i).1 *
            (1 + simulate_3x_inverse
              ((d.close.getD j 0 - d.close.getD i 0) / d.close.getD i 0)))
    ∧ ((entrySpxsOf d i).2 = true → ∀ j q, d.spxs.getD j none = some q →
        monitoredSpxs d (d.close.getD i 0) (entrySpxsOf d i).1
          (entrySpxsOf d i).2 j = q)
    ∧ ((entrySpxsOf d i).2 = true → ∀ j, d.spxs.getD j none = none →
        monitoredSpxs d (d.close.getD i 0) (entrySpxsOf d i).1
            (entrySpxsOf d i).2 j
          = (entrySpxsOf d i).1 *
            (1 + simulate_3x_inverse
              ((d.close.getD j 0 - d.close.getD i 0) / d.close.getD i 0)))
    ∧ (openTrade p d i pv).exitSpxs
        = monitoredSpxs d (d.close.getD i 0) (entrySpxsOf d i).1
            (entrySpxsOf d i).2 (openTrade p d i pv).exitIdx := by
  refine ⟨?_, ?_, ?_, ?_⟩
  · intro hur j
    unfold monitoredSpxs usesRealPriceAt
    rw [hur]
    simp
  · intro hur j q hs
    unfold monitoredSpxs usesRealPriceAt
    rw [hur, hs]
    simp
  · intro hur j hs
    unfold monitoredSpxs usesRealPriceAt
    rw [hur, hs]
    simp
  · rcases hfe : firstExit
        (exitCheckAt p d i (d.close.getD i 0) (entrySpxsOf d i).1
          (entrySpxsOf d i).2) (monitorIdxs p d i) with _ | jr
    · have ho : openTrade p d i pv =
          closeTradeAt p d i pv (min (i + p.holdDays) (d.close.length - 1))
            ExitReason.endOfData
            (monitoredSpxs d (d.close.getD i 0) (entrySpxsOf d i).1
              (entrySpxsOf d i).2
              (min (i + p.holdDays) (d.close.length - 1))) := by
        simp only [openTrade]
        rw [hfe]
      rw [ho]
      rfl
    · obtain ⟨j, r⟩ := jr
      have ho : openTrade p d i pv =
          closeTradeAt p d i pv j r
            (monitoredSpxs d (d.close.getD i 0) (entrySpxsOf d i).1
              (entrySpxsOf d i).2 j) := by
        simp only [openTrade]
        rw [hfe]
      rw [ho]
      rfl

/-- C4 witness for the amended claim: with no real instrument data at all,
the entry is synthetic and a monitored day is priced by the synthetic
model. -/
theorem trade_pricing_fallback_witness :
    (entrySpxsOf c2Data 0).2 = false
    ∧ monitoredSpxs c2Data ((c2Data.close).getD 0 0)
        (entrySpxsOf c2Data 0).1 (entrySpxsOf c2Data 0).2 1
      = (entrySpxsOf c2Data 0).1 *
        (1 + simulate_3x_inverse
          (((c2Data.close).getD 1 0 - (c2Data.close).getD 0 0) /
            (c2Data.close).getD 0 0)) := by
  have hf : (entrySpxsOf c2Data 0).2 = false := by
    norm_num [entrySpxsOf, c2Data]
  exact ⟨hf, (trade_pricing_fallback c2Params c2Data 0 100000).1 hf 1⟩

/-- C4 counterexample to the claim as stated: a trade entered on a real
instrument price whose exit day has no real price is priced by the synthetic
model at exit — real and synthetic pricing mix inside one trade. -/
theorem trade_pricing_mixed_cex :
    (entrySpxsOf c4Data 0).2 = true
    ∧ (openTrade c2Params c4Data 0 100000).exitIdx = 1
    ∧ c4Data.spxs.getD 1 none = none
    ∧ (openTrade c2Params c4Data 0 100000).exitSpxs
        = (entrySpxsOf c4Data 0).1 *
          (1 + simulate_3x_inverse
            ((c4Data.close.getD 1 0 - c4Data.close.getD 0 0) /
              c4Data.close.getD 0 0)) := by
  norm_num [openTrade, closeTradeAt, firstExit, monitorIdxs, exitCheckAt,
    spxsReturnAt, monitoredSpxs, usesRealPriceAt, entrySpxsOf,
    simulate_3x_inverse, c2Params, c4Data, List.range']

end TradeSimProofs

section SentimentProxyProofs

/-- C9: for every day the sentiment proxy is present exactly where the
trailing 5-return mean is, and then equals
0.8 + 0.3 * (volatility / 20 - 1) - 10 * mean, clipped to [0.3, 2.5];
consequently every produced proxy value lies in [0.3, 2.5]. -/
theorem put_call_proxy_formula {α : Type*} [LinearOrderedField α]
    (vix : List α) (rets : List (Option α)) (i : Nat)
    (h : i < (calculate_put_call_proxy vix rets).length) :
    (calculate_put_call_proxy vix rets).getD i none
      = ((rollingMean 5 rets).getD i none).map
          (fun m =>
            min (max (0.8 + 0.3 * (vix.getD i 0 / 20 - 1) - 10 * m) 0.3) 2.5)
    ∧ ∀ w, (calculate_put_call_proxy vix rets).getD i none = some w →
        0.3 ≤ w ∧ w ≤ 2.5 := by
  have hlen : (calculate_put_call_proxy vix rets).length =
      min vix.length (rollingMean 5 rets).length := by
    simp [calculate_put_call_proxy, List.length_zip]
  have hv : i < vix.length := by
    rw [hlen] at h
    omega
  have hm : i < (rollingMean 5 rets).length := by
    rw [hlen] at h
    have h1 := Nat.min_le_right vix.length (rollingMean 5 rets).length
    omega
  constructor
  · rw [List.getD_eq_getElem _ _ h, List.getD_eq_getElem _ _ hm,
      List.getD_eq_getElem _ _ hv]
    unfold calculate_put_call_proxy clipOpt
    simp only [List.getElem_map, List.getElem_zip]
    rcases hr : (rollingMean 5 rets)[i] with _ | m <;> simp [hr]
    ring_nf
  · intro w hw
    rw [List.getD_eq_getElem _ _ h] at hw
    unfold calculate_put_call_proxy clipOpt at hw
    simp only [List.getElem_map] at hw
    obtain ⟨x, -, rfl⟩ := Option.map_eq_some'.mp hw
    refine ⟨le_min (le_max_right _ _) (by norm_num), min_le_right _ _⟩

/-- C9 witness: on a flat series with zero returns the proxy on day 4 equals
the clipped formula value. -/
theorem put_call_proxy_formula_witness :
    4 < (calculate_put_call_proxy c9Vix c9Rets).length
    ∧ (calculate_put_call_proxy c9Vix c9Rets).getD 4 none
      = ((rollingMean 5 c9Rets).getD 4 none).map
          (fun m =>
            min (max (0.8 + 0.3 * (c9Vix.getD 4 0 / 20 - 1) - 10 * m) 0.3)
              2.5) := by
  have hlen : 4 < (calculate_put_call_proxy c9Vix c9Rets).length := by
    norm_num [calculate_put_call_proxy, rollingMean, clipOpt, List.length_zip,
      c9Vix, c9Rets]
  exact ⟨hlen, (put_call_proxy_formula c9Vix c9Rets 4 hlen).1⟩

end SentimentProxyProofs

section RegimeProofs

/-- C7: the regime labeller assigns each discovered state its label by the
first matching rule in priority order (std > 0.015 and mean < 0 gives
Crisis, else std > 0.012 gives Volatile, else mean > 0.001 gives Bull, else
Normal); a state with zero assigned days receives no entry in the label map;
inference reports Unknown when fewer than 30 complete feature rows exist, and
any non-Unknown answer is a label stored in the fitted map at the predicted
state. -/
theorem regime_label_soundness
    (predictSeq : List (ℝ × ℝ × ℝ) → List (Fin 4))
    (predictOne : ℝ × ℝ × ℝ → Fin 4)
    (returns : List (Option ℝ)) :
    (∀ m s : ℝ,
      (s > 0.015 → m < 0 → labelOf m s = "Crisis")
      ∧ (¬(s > 0.015 ∧ m < 0) → s > 0.012 → labelOf m s = "Volatile")
      ∧ (¬(s > 0.015 ∧ m < 0) → ¬(s > 0.012) → m > 0.001 →
          labelOf m s = "Bull")
      ∧ (¬(s > 0.015 ∧ m < 0) → ¬(s > 0.012) → ¬(m > 0.001) →
          labelOf m s = "Normal"))
    ∧ (∀ (states : List (Fin 4)) (rets : List (Option ℝ)) (st : Fin 4),
        states.count st = 0 → stateLabels states rets st = none)
    ∧ ((completeFeatures returns).length < 30 →
        calculate_current_regime predictSeq predictOne returns = "Unknown")
    ∧ (∀ lbl, calculate_current_regime predictSeq predictOne returns = lbl →
        lbl ≠ "Unknown" →
        ∃ labels, train_hmm_model predictSeq returns = some labels
          ∧ labels (predictOne (lastFeature returns)) = some lbl)
    ∧ (¬((completeFeatures returns).length < 30) →
        (predictSeq (completeFeatures returns)).count
            (predictOne (lastFeature returns)) = 0 →
        calculate_current_regime predictSeq predictOne returns
          = "Unknown") := by
  refine ⟨?_, ?_, ?_, ?_, ?_⟩
  · intro m s
    unfold labelOf
    refine ⟨fun h1 h2 => ?_, fun hn h2 => ?_, fun hn h2 h3 => ?_,
      fun hn h2 h3 => ?_⟩
    · rw [if_pos ⟨h1, h2⟩]
    · rw [if_neg hn, if_pos h2]
    · rw [if_neg hn, if_neg h2, if_pos h3]
    · rw [if_neg hn, if_neg h2, if_neg h3]
  · intro states rets st h
    unfold stateLabels
    rw [h]
    simp
  · intro hlt
    unfold calculate_current_regime train_hmm_model
    rw [if_pos hlt]
  · intro lbl heq hne
    rcases htr : train_hmm_model predictSeq returns with _ | labels
    · unfold calculate_current_regime at heq
      rw [htr] at heq
      exact absurd heq.symm hne
    · unfold calculate_current_regime at heq
      rw [htr] at heq
      have heq' : (labels (predictOne (lastFeature returns))).getD "Unknown"
          = lbl := heq
      rcases hl : labels (predictOne (lastFeature returns)) with _ | l
      · rw [hl] at heq'
        exact absurd heq'.symm hne
      · rw [hl] at heq'
        have hll : l = lbl := heq'
        exact ⟨labels, rfl, by rw [hl]; exact congrArg some hll⟩
  · intro hge hcnt
    have htr : train_hmm_model predictSeq returns =
        some (stateLabels (predictSeq (completeFeatures returns))
          returns) := by
      unfold train_hmm_model
      rw [if_neg hge]
    have hzero : stateLabels (predictSeq (completeFeatures returns)) returns
        (predictOne (lastFeature returns)) = none := by
      unfold stateLabels
      rw [hcnt]
      simp
    unfold calculate_current_regime
    rw [htr]
    show (stateLabels (predictSeq (completeFeatures returns)) returns
        (predictOne (lastFeature returns))).getD "Unknown" = "Unknown"
    rw [hzero]
    rfl

/-- C7 witness: a state absent from a concrete decoded sequence has no entry
in the label map. -/
theorem regime_label_soundness_witness :
    stateLabels [0, 1] [] 3 = none :=
  (regime_label_soundness c7PredictSeq c7PredictOne []).2.1 [0, 1] [] 3
    (by decide)

end RegimeProofs

section FractalProofs

/-- C5: the fractal-dimension estimator returns none whenever the price
series is shorter than 2 times max_lag, and also whenever fewer than 2 lags
yield a usable averaged rescaled-range value; being a total function, these
null results are its only failure mode. -/
theorem fractal_none_insufficient (prices : List ℝ) (maxLag : Nat)
    (h : prices.length < maxLag * 2
      ∨ (tauEntries prices maxLag).length < 2) :
    calculate_fractal_dimension prices maxLag = none := by
  unfold calculate_fractal_dimension
  rcases h with h | h
  · rw [if_pos h]
  · by_cases h1 : prices.length < maxLag * 2
    · rw [if_pos h1]
    · rw [if_neg h1]
      rw [if_pos
        (show ((tauEntries prices maxLag).map Prod.snd).length < 2 by
          simpa using h)]

/-- C5 witness: a three-price series is too short for max_lag 20. -/
theorem fractal_none_insufficient_witness :
    ([(1 : ℝ), 2, 3].length < 20 * 2)
    ∧ calculate_fractal_dimension [(1 : ℝ), 2, 3] 20 = none :=
  ⟨by norm_num,
   fractal_none_insufficient [(1 : ℝ), 2, 3] 20 (Or.inl (by norm_num))⟩

/-- Helper: log prices of the constructed series. -/
theorem exLog : exPrices.map Real.log =
    [0, 0, 1, 1, 2, 2, 3, 3, 4, 4] := by
  simp [exPrices, Real.log_exp]

/-- Helper: the mean of a constant pair. -/
theorem listMean_pair (x : ℝ) : listMean [x, x] = x := by
  simp [listMean]

/-- Helper: a constant pair has zero variance. -/
theorem npVar_pair (x : ℝ) : npVar [x, x] = 0 := by
  simp [npVar, listMean_pair]

/-- Helper: a constant pair has zero standard deviation. -/
theorem npStd_pair (x : ℝ) : npStd [x, x] = 0 := by
  unfold npStd
  rw [npVar_pair, Real.sqrt_zero]

/-- Helper: a constant pair is skipped by the rescaled-range computation. -/
theorem rsOfSub_pair (x : ℝ) : rsOfSub [x, x] = none := by
  simp [rsOfSub, npStd_pair]

/-- Helper: a sub-series with positive variance yields a rescaled-range
value. -/
theorem rsOfSub_isSome (sub : List ℝ) (h2 : 2 ≤ sub.length)
    (hv : 0 < npVar sub) : (rsOfSub sub).isSome = true := by
  have hs : 0 < npStd sub := by
    unfold npStd
    exact Real.sqrt_pos.mpr hv
  unfold rsOfSub
  rw [if_neg (show ¬sub.length < 2 by omega)]
  show (if npStd sub > 0 then
      some ((listMax (cumsum (List.map (fun x => x - listMean sub) sub))
        - listMin (cumsum (List.map (fun x => x - listMean sub) sub)))
          / npStd sub)
    else none).isSome = true
  rw [if_pos hs]
  rfl

/-- Helper: lag 2 yields no value on the constructed series, since every
length-2 sub-series of the log prices is constant. -/
theorem tau_ex_lag2 :
    tauForLag [0, 0, 1, 1, 2, 2, 3, 3, 4, 4] 2 = none := by
  have hsub : subseriesOf ([0, 0, 1, 1, 2, 2, 3, 3, 4, 4] : List ℝ) 2 =
      [[0, 0], [1, 1], [2, 2], [3, 3], [4, 4]] := by rfl
  unfold tauForLag
  rw [if_neg (by norm_num)]
  simp [hsub, rsOfSub_pair]

/-- Helper: lag 3 yields a value on the constructed series. -/
theorem tau_ex_lag3 :
    (tauForLag [0, 0, 1, 1, 2, 2, 3, 3, 4, 4] 3).isSome = true := by
  have hsub : subseriesOf ([0, 0, 1, 1, 2, 2, 3, 3, 4, 4] : List ℝ) 3 =
      [[0, 0, 1], [1, 2, 2], [3, 3, 4]] := by rfl
  have hv1 : 0 < npVar [(0 : ℝ), 0, 1] := by
    norm_num [npVar, listMean]
  obtain ⟨y, hy⟩ := Option.isSome_iff_exists.mp
    (rsOfSub_isSome [(0 : ℝ), 0, 1] (by norm_num) hv1)
  unfold tauForLag
  rw [if_neg (by norm_num)]
  simp [hsub, hy]

/-- Helper: lag 4 yields a value on the constructed series. -/
theorem tau_ex_lag4 :
    (tauForLag [0, 0, 1, 1, 2, 2, 3, 3, 4, 4] 4).isSome = true := by
  have hsub : subseriesOf ([0, 0, 1, 1, 2, 2, 3, 3, 4, 4] : List ℝ) 4 =
      [[0, 0, 1, 1], [2, 2, 3, 3]] := by rfl
  have hv1 : 0 < npVar [(0 : ℝ), 0, 1, 1] := by
    norm_num [npVar, listMean]
  obtain ⟨y, hy⟩ := Option.isSome_iff_exists.mp
    (rsOfSub_isSome [(0 : ℝ), 0, 1, 1] (by norm_num) hv1)
  unfold tauForLag
  rw [if_neg (by norm_num)]
  simp [hsub, hy]

/-- C6: on the constructed series the retained rescaled-range averages are
produced by lags 3 and 4 (lag 2 is dropped), yet the regression abscissae
lags[:len(tau)] are lags 2 and 3 — the fit pairs each retained average with
the wrong lag whenever a dropped lag precedes a retained one. -/
theorem fractal_lag_pairing_bug :
    (tauEntries exPrices 5).map Prod.fst = [3, 4]
    ∧ regressionLags exPrices 5 = [2, 3] := by
  obtain ⟨t3, ht3⟩ := Option.isSome_iff_exists.mp tau_ex_lag3
  obtain ⟨t4, ht4⟩ := Option.isSome_iff_exists.mp tau_ex_lag4
  have hrange : List.range' 2 (5 - 2) = [2, 3, 4] := rfl
  have hentries : tauEntries exPrices 5 = [(3, t3), (4, t4)] := by
    unfold tauEntries
    rw [exLog, hrange]
    simp [tau_ex_lag2, ht3, ht4]
  constructor
  · rw [hentries]
    rfl
  · unfold regressionLags
    rw [hentries, hrange]
    rfl

end FractalProofs

end CrashDetect
